import Mathlib

/-!
Shallow embedding of `src/servicefabric.go` (package `servicefabric`): the
data model, the URL builder, the transport adapter, the pagination
aggregator and the domain operations, together with theorems checking the
natural-language specification against them.

The injected HTTP transport is modelled as a function from the request
sequence number to an optional response (`none` models a transport-level
failure), and the JSON/XML codecs — which the design document explicitly
treats as built-in, out-of-scope capabilities — as caller-supplied decode
functions.  The `for { ... }` pagination loops of the source receive
explicit fuel; an overall result of `none` models fuel exhaustion, i.e. a
run of the loop that has not terminated within the given number of
iterations.
-/

namespace ServiceFabric

/-- One HTTP response as observed by the client: a status code and a body
(the `Into(&text)` / `StatusInto(&status)` pair of the Go transport). -/
structure HTTPResponse where
  status : Nat
  body   : String
  deriving DecidableEq

/-- Result of one transport request; `none` models a transport-level
failure (the `err != nil` branch after `Run()`). -/
abbrev TransportResult := Option HTTPResponse

/-- The error kinds produced by the client.  Constructors carry the data
that the corresponding Go `fmt.Errorf` call interpolates into its message;
`genericMsg` covers the `errors.New` / fixed-text errors. -/
inductive SFError where
  | invalidClient : SFError
  | connectivity (url : String) : SFError
  | upstreamStatus (status : Nat) (url : String) : SFError
  | emptyResponse : SFError
  | deserialization (msg : String) : SFError
  | config (msg : String) : SFError
  | genericMsg (msg : String) : SFError
  deriving DecidableEq

/-- The Go error message of each error kind (the `fmt.Errorf` format
strings of the source; for `connectivity` the wrapped transport error text
is omitted since the transport is abstract). -/
def renderSFError : SFError → String
  | .invalidClient => "invalid http client provided"
  | .connectivity url => "failed to connect to Service Fabric server on " ++ url
  | .upstreamStatus status url =>
      "Service Fabric responded with error code " ++ toString status ++
        " to request " ++ url ++ " with body"
  | .emptyResponse => "empty response body from Service Fabric"
  | .deserialization msg => "could not deserialise JSON response: " ++ msg
  | .config msg => msg
  | .genericMsg msg => msg

/-! ### Data model (lines 14–177 of the source) -/

/-- Go `AppParameter` (lines 24–27). -/
structure AppParameter where
  Key   : String
  Value : String
  deriving DecidableEq

/-- Go `ApplicationItem` (lines 29–37).  The Go field `Parameters` is a slice
of pointers; it is modelled as a plain list of values. -/
structure ApplicationItem where
  HealthState : String
  ID          : String
  Name        : String
  Parameters  : List AppParameter
  Status      : String
  TypeName    : String
  TypeVersion : String
  deriving DecidableEq

/-- Go `ApplicationItemsPage` (lines 19–22); the `*string` continuation token
is an `Option String` (`none` = JSON null / absent). -/
structure ApplicationItemsPage where
  ContinuationToken : Option String
  Items             : List ApplicationItem
  deriving DecidableEq

/-- Go `ServiceItem` (lines 44–54). -/
structure ServiceItem where
  HasPersistedState : Bool
  HealthState       : String
  ID                : String
  IsServiceGroup    : Bool
  ManifestVersion   : String
  Name              : String
  ServiceKind       : String
  ServiceStatus     : String
  TypeName          : String
  deriving DecidableEq

/-- Go `ServiceItemsPage` (lines 39–42). -/
structure ServiceItemsPage where
  ContinuationToken : Option String
  Items             : List ServiceItem
  deriving DecidableEq

/-- Go `KeyValuePair` (lines 165–168). -/
structure KeyValuePair where
  Key   : String
  Value : String
  deriving DecidableEq

/-- Go `ServiceTypeDescription` (lines 128–137).  The two `[]interface{}`
fields hold opaque values and are modelled as lists of an opaque unit. -/
structure ServiceTypeDescription where
  IsStateful               : Bool
  ServiceTypeName          : String
  PlacementConstraints     : String
  HasPersistedState        : Bool
  Kind                     : String
  Extensions               : List KeyValuePair
  LoadMetrics              : List Unit
  ServicePlacementPolicies : List Unit
  deriving DecidableEq

/-- Go `ServiceType` (lines 121–126). -/
structure ServiceType where
  ServiceTypeDescription : ServiceTypeDescription
  ServiceManifestVersion : String
  ServiceManifestName    : String
  IsServiceGroup         : Bool
  deriving DecidableEq

/-- Go `Metadata` (lines 151–158). -/
structure Metadata where
  CustomTypeID             : String
  LastModifiedUtcTimestamp : String
  Parent                   : String
  SequenceNumber           : String
  SizeInBytes              : Int
  TypeID                   : String
  deriving DecidableEq

/-- Go `PropValue` (lines 160–163). -/
structure PropValue where
  Data : String
  Kind : String
  deriving DecidableEq

/-- Go `Property` (lines 145–149). -/
structure Property where
  Metadata : Metadata
  Name     : String
  Value    : PropValue
  deriving DecidableEq

/-- Go `PropertiesListPage` (lines 139–143); here the continuation token is a
plain string, not a pointer. -/
structure PropertiesListPage where
  ContinuationToken : String
  IsConsistent      : Bool
  Properties        : List Property
  deriving DecidableEq

/-- One `<Label Key="...">value</Label>` element of
`ServiceExtensionLabels` (lines 172–176); the `xml.Name` fields carry no
information beyond the fixed element names and are omitted. -/
structure SELabel where
  Value : String
  Key   : String
  deriving DecidableEq

/-- Go `ServiceExtensionLabels` (lines 170–177).  The Go `Label` slice can be
nil (the zero value before decoding); `none` models the nil slice. -/
structure ServiceExtensionLabels where
  Label : Option (List SELabel)
  deriving DecidableEq

/-! ### Client construction (lines 179–202) -/

/-- Go `DefaultAPIVersion` (line 15). -/
def DefaultAPIVersion : String := "3.0"

/-- Go `ServiceFabricClient` (lines 180–187); the nil-ness of the injected
`*requests.HTTPClient` is all the source ever inspects of it, so it is
modelled as the flag `hasHTTPClient`. -/
structure ServiceFabricClient where
  endpoint      : String
  apiVersion    : String
  hasHTTPClient : Bool
  deriving DecidableEq

/-- Go `NewServiceFabricClient` (lines 189–202). -/
def NewServiceFabricClient (hasHTTPClient : Bool) (endpoint apiVersion : String) :
    Except SFError ServiceFabricClient :=
  if endpoint = "" then
    .error (.config "endpoint missing for httpClient configuration")
  else
    .ok { endpoint := endpoint
          apiVersion := if apiVersion = "" then DefaultAPIVersion else apiVersion
          hasHTTPClient := hasHTTPClient }

/-! ### URL builder and query-parameter injectors (lines 422–430, 465–480) -/

/-- Go `queryParamsFunc` (line 17). -/
abbrev QueryParamsFunc := List String → List String

/-- Go `withParam` (lines 472–476). -/
def withParam (name value : String) : QueryParamsFunc :=
  fun params => params ++ [name ++ "=" ++ value]

/-- Go `noOp` (lines 478–480). -/
def noOp : QueryParamsFunc := fun params => params

/-- Go `withContinue` (lines 465–470). -/
def withContinue (token : String) : QueryParamsFunc :=
  if token.length = 0 then noOp else withParam "continue" token

/-- Go `strings.Join(params, "&")` as used by `getURL`. -/
def joinParams : List String → String
  | [] => ""
  | [p] => p
  | p :: rest => p ++ "&" ++ joinParams rest

/-- Go `getURL` (lines 422–430): `{endpoint}/{basePath}?{params joined by &}`
with `api-version={configured}` always first. -/
def getURL (c : ServiceFabricClient) (basePath : String)
    (paramsFuncs : List QueryParamsFunc) : String :=
  let params := paramsFuncs.foldl (fun ps f => f ps) ["api-version=" ++ c.apiVersion]
  c.endpoint ++ "/" ++ basePath ++ "?" ++ joinParams params

/-- Go `getString` (lines 458–463). -/
def getString : Option String → String
  | none => ""
  | some s => s

/-! ### Transport adapter (lines 377–420, 432–457) -/

/-- Go `getHTTP` (lines 377–402): nil client check, connectivity failure,
non-200 status, empty body, then the raw body bytes. -/
def getHTTP (c : ServiceFabricClient) (url : String) (t : TransportResult) :
    Except SFError String :=
  if c.hasHTTPClient = false then .error .invalidClient
  else
    match t with
    | none => .error (.connectivity url)
    | some r =>
      if r.status ≠ 200 then .error (.upstreamStatus r.status url)
      else if r.body.length = 0 then .error .emptyResponse
      else .ok r.body

/-- Go `getHTTPRaw` (lines 404–420): same request, but the raw status code is
returned without interpretation. -/
def getHTTPRaw (c : ServiceFabricClient) (url : String) (t : TransportResult) :
    Except SFError Nat :=
  if c.hasHTTPClient = false then .error .invalidClient
  else
    match t with
    | none => .error (.connectivity url)
    | some r => .ok r.status

/-- Go `postHTTP` (lines 432–457).  The Go text of this function does not
compile (it redeclares its `body` parameter and reads an undeclared
`status` variable); its checks are the evident copy of `getHTTP` with a
POST verb, which is what is embedded here. -/
def postHTTP (c : ServiceFabricClient) (url : String) (t : TransportResult) :
    Except SFError String :=
  if c.hasHTTPClient = false then .error .invalidClient
  else
    match t with
    | none => .error (.connectivity url)
    | some r =>
      if r.status ≠ 200 then .error (.upstreamStatus r.status url)
      else if r.body.length = 0 then .error .emptyResponse
      else .ok r.body

/-! ### Pagination aggregator (the `for { ... }` loops of lines 204–252 and
339–362) -/

/-- The shared shape of the three pagination loops: fetch (the fetch may
inspect the current continuation token, which is injected into the URL),
step the accumulator with the page, read the next token, stop on an empty
token.  `fuel` bounds the number of iterations modelled; `i` counts the
fetches issued so far.  The result pairs the outcome with the total number
of fetches issued; `none` means the loop was still running when the fuel
ran out. -/
def paginate {π α : Type} (fetch : Nat → String → Except SFError π)
    (tokenOf : π → String) (step : α → π → α) :
    Nat → Nat → String → α → Option (Except SFError α × Nat)
  | 0, _, _, _ => none
  | fuel + 1, i, token, acc =>
    match fetch i token with
    | .error e => some (.error e, i + 1)
    | .ok page =>
      let acc2 := step acc page
      let token2 := tokenOf page
      if token2 = "" then some (.ok acc2, i + 1)
      else paginate fetch tokenOf step fuel (i + 1) token2 acc2

/-- One iteration's fetch-and-decode of the `GetApplications` loop (lines
208–217): GET `Applications/` with the continuation token injected, then
JSON-decode the body. -/
def appFetch (c : ServiceFabricClient) (transport : Nat → TransportResult)
    (decode : String → Except String ApplicationItemsPage)
    (i : Nat) (token : String) : Except SFError ApplicationItemsPage :=
  match getHTTP c (getURL c "Applications/" [withContinue token]) (transport i) with
  | .error e => .error e
  | .ok body =>
    match decode body with
    | .error msg => .error (.deserialization msg)
    | .ok page => .ok page

/-- Go `GetApplications` (lines 204–227): aggregate all pages' items in fetch
order into one page whose continuation token stays nil. -/
def GetApplications (c : ServiceFabricClient) (transport : Nat → TransportResult)
    (decode : String → Except String ApplicationItemsPage) (fuel : Nat) :
    Option (Except SFError ApplicationItemsPage × Nat) :=
  paginate (appFetch c transport decode) (fun p => getString p.ContinuationToken)
    (fun acc p => { acc with Items := acc.Items ++ p.Items })
    fuel 0 "" { ContinuationToken := none, Items := [] }

/-- One iteration's fetch-and-decode of the `GetServices` loop (lines
233–242). -/
def svcFetch (c : ServiceFabricClient) (appName : String)
    (transport : Nat → TransportResult)
    (decode : String → Except String ServiceItemsPage)
    (i : Nat) (token : String) : Except SFError ServiceItemsPage :=
  match getHTTP c (getURL c ("Applications/" ++ appName ++ "/$/GetServices")
      [withContinue token]) (transport i) with
  | .error e => .error e
  | .ok body =>
    match decode body with
    | .error msg => .error (.deserialization msg)
    | .ok page => .ok page

/-- Go `GetServices` (lines 229–252). -/
def GetServices (c : ServiceFabricClient) (appName : String)
    (transport : Nat → TransportResult)
    (decode : String → Except String ServiceItemsPage) (fuel : Nat) :
    Option (Except SFError ServiceItemsPage × Nat) :=
  paginate (svcFetch c appName transport decode) (fun p => getString p.ContinuationToken)
    (fun acc p => { acc with Items := acc.Items ++ p.Items })
    fuel 0 "" { ContinuationToken := none, Items := [] }

/-! ### Health check and deletes (lines 254–279) -/

/-- The URL probed by `GetClusterHealth` (line 255 routed through
`getURL`): the hard-coded `api-version=6.0` lives inside the base path. -/
def healthCheckURL (c : ServiceFabricClient) : String :=
  getURL c "/$/GetClusterHealth?api-version=6.0&" []

/-- Go `GetClusterHealth` (lines 254–261): status probe, true iff 200. -/
def GetClusterHealth (c : ServiceFabricClient) (probe : TransportResult) :
    Bool × Option SFError :=
  match getHTTPRaw c (healthCheckURL c) probe with
  | .error _ => (false, some (.genericMsg "error getting cluster health"))
  | .ok s => (decide (s = 200), none)

/-- Go `DeleteService` (lines 263–270).  In Go the success branch compares the
`[]byte` result of `postHTTP` to the integer `http.StatusOK` and does not
type-check; since `postHTTP` only succeeds when the status was 200, the
success branch is modelled as `true`. -/
def DeleteService (c : ServiceFabricClient) (serviceId : String)
    (t : TransportResult) : Bool × Option SFError :=
  match postHTTP c (getURL c ("/Services/" ++ serviceId ++ "/$/Delete")
      [withParam "api-version" c.apiVersion]) t with
  | .error _ => (false, some (.genericMsg "error getting cluster health"))
  | .ok _ => (true, none)

/-- Go `DeleteApplication` (lines 272–279), same shape as `DeleteService`. -/
def DeleteApplication (c : ServiceFabricClient) (applicationId : String)
    (t : TransportResult) : Bool × Option SFError :=
  match postHTTP c (getURL c ("/Applications/" ++ applicationId ++ "/$/Delete")
      [withParam "api-version" c.apiVersion]) t with
  | .error _ => (false, some (.genericMsg "error getting cluster health"))
  | .ok _ => (true, none)

/-! ### Service-type extension lookup (lines 281–324) -/

/-- The inner loop of `GetServiceExtension` (lines 295–303): first
extension whose key matches under `equalFold`, the caller-supplied model
of Go's `strings.EqualFold` (Unicode simple case folding) — a
standard-library capability abstracted over the same way as the JSON/XML
codecs. -/
def findExtensionValue (equalFold : String → String → Bool)
    (extensions : List KeyValuePair) (extensionKey : String) :
    Option String :=
  match extensions with
  | [] => none
  | e :: rest =>
    if equalFold e.Key extensionKey then some e.Value
    else findExtensionValue equalFold rest extensionKey

/-- The nested scan of `GetServiceExtension` (lines 293–305): walk the
service types in order; for each whose name matches exactly, look for an
extension whose key matches under `equalFold`; the first hit wins, and a
name-matching type with no matching extension lets the outer loop
continue. -/
def scanServiceTypes (equalFold : String → String → Bool)
    (serviceTypes : List ServiceType)
    (serviceTypeName extensionKey : String) : Option String :=
  match serviceTypes with
  | [] => none
  | st :: rest =>
    if st.ServiceTypeDescription.ServiceTypeName = serviceTypeName then
      match findExtensionValue equalFold st.ServiceTypeDescription.Extensions extensionKey with
      | some v => some v
      | none => scanServiceTypes equalFold rest serviceTypeName extensionKey
    else scanServiceTypes equalFold rest serviceTypeName extensionKey

/-- Go `GetServiceExtension` (lines 281–307).  `xmlDecode v r` models
`xml.Unmarshal([]byte(v), &r)`: it maps the previous value of the target
to its decoded value, or fails.  `equalFold` models the library function
`strings.EqualFold` used for the key comparison at line 296. -/
def GetServiceExtension {α : Type} (c : ServiceFabricClient)
    (t : TransportResult)
    (decodeJSON : String → Except String (List ServiceType))
    (xmlDecode : String → α → Except String α)
    (equalFold : String → String → Bool)
    (appType applicationVersion serviceTypeName extensionKey : String)
    (response : α) : Except SFError α :=
  match getHTTP c (getURL c ("ApplicationTypes/" ++ appType ++ "/$/GetServiceTypes")
      [withParam "ApplicationTypeVersion" applicationVersion]) t with
  | .error e => .error (.genericMsg ("error requesting service extensions: " ++ renderSFError e))
  | .ok body =>
    match decodeJSON body with
    | .error msg => .error (.deserialization msg)
    | .ok serviceTypes =>
      match scanServiceTypes equalFold serviceTypes serviceTypeName extensionKey with
      | none => .ok response
      | some v =>
        match xmlDecode v response with
        | .error msg => .error (.deserialization msg)
        | .ok r => .ok r

/-- A Go `map[string]string`, observed through `mapLookup`; the outer
`Option` keeps the nil map distinct from the empty map. -/
abbrev GoStringMap := Option (List (String × String))

/-- Go map insertion `m[k] = v`: observationally, later inserts win. -/
def mapInsert (m : List (String × String)) (k v : String) :
    List (String × String) := m ++ [(k, v)]

/-- Go map read `m[k]`: the most recently inserted binding of `k`. -/
def mapLookup (m : List (String × String)) (k : String) : Option String :=
  (m.reverse.find? (fun p => p.1 == k)).map (fun p => p.2)

/-- Go `GetServiceExtensionMap` (lines 309–324): decode the extension into
`ServiceExtensionLabels` (zero value: nil `Label` slice) and flatten the
labels into a freshly made, hence non-nil, map. -/
def GetServiceExtensionMap (c : ServiceFabricClient) (t : TransportResult)
    (decodeJSON : String → Except String (List ServiceType))
    (xmlDecode : String → ServiceExtensionLabels → Except String ServiceExtensionLabels)
    (equalFold : String → String → Bool)
    (service : ServiceItem) (app : ApplicationItem) (extensionKey : String) :
    Except SFError GoStringMap :=
  match GetServiceExtension c t decodeJSON xmlDecode equalFold
      app.TypeName app.TypeVersion service.TypeName extensionKey
      { Label := none } with
  | .error e => .error e
  | .ok extensionData =>
    match extensionData.Label with
    | none => .ok (some [])
    | some ls => .ok (some (ls.foldl (fun m label => mapInsert m label.Key label.Value) []))

/-! ### Properties (lines 326–375) -/

/-- Go `nameExists` (lines 367–375): probe `Names/{name}`, true iff 200. -/
def nameExists (c : ServiceFabricClient) (propertyName : String)
    (probe : TransportResult) : Except SFError Bool :=
  match getHTTPRaw c (getURL c ("Names/" ++ propertyName) []) probe with
  | .error e => .error e
  | .ok s => .ok (decide (s = 200))

/-- One iteration's fetch-and-decode of the `GetProperties` loop (lines
340–349). -/
def propsFetch (c : ServiceFabricClient) (name : String)
    (transport : Nat → TransportResult)
    (decode : String → Except String PropertiesListPage)
    (i : Nat) (token : String) : Except SFError PropertiesListPage :=
  match getHTTP c (getURL c ("Names/" ++ name ++ "/$/GetProperties")
      [withContinue token, withParam "IncludeValues" "true"]) (transport i) with
  | .error e => .error e
  | .ok body =>
    match decode body with
    | .error msg => .error (.deserialization msg)
    | .ok page => .ok page

/-- The per-page accumulation of `GetProperties` (lines 351–356): keep only
properties whose `Value.Kind` is exactly `"String"`. -/
def propStep (acc : List (String × String)) (page : PropertiesListPage) :
    List (String × String) :=
  page.Properties.foldl
    (fun m property =>
      if property.Value.Kind ≠ "String" then m
      else mapInsert m property.Name property.Value.Data)
    acc

/-- Go `GetProperties` (lines 326–365), returning the Go triple
`(bool, map[string]string, error)` plus the number of GetProperties page
fetches issued (the probe is not counted). -/
def GetProperties (c : ServiceFabricClient) (name : String)
    (probe : TransportResult) (transport : Nat → TransportResult)
    (decode : String → Except String PropertiesListPage) (fuel : Nat) :
    Option ((Bool × GoStringMap × Option SFError) × Nat) :=
  match nameExists c name probe with
  | .error e => some ((false, none, some e), 0)
  | .ok false => some ((false, none, none), 0)
  | .ok true =>
    match paginate (propsFetch c name transport decode)
        (fun p => p.ContinuationToken) propStep fuel 0 "" [] with
    | none => none
    | some (.error e, n) => some ((false, none, some e), n)
    | some (.ok m, n) => some ((true, some m, none), n)

/-! ### Generic lemmas about the pagination loop -/

/-- A run of the loop over a sequence `ps` of successfully fetched pages,
all but the last carrying a non-empty continuation token and the last an
empty one, folds the pages into the accumulator and issues exactly
`ps.length` fetches. -/
theorem paginate_ok {π α : Type} (fetch : Nat → String → Except SFError π)
    (tokenOf : π → String) (step : α → π → α) (d : π) :
    ∀ (ps : List π) (i fuel : Nat) (token : String) (acc : α),
      ps ≠ [] →
      (∀ j, j < ps.length → ∀ tk, fetch (i + j) tk = .ok (ps.getD j d)) →
      (∀ j, j < ps.length - 1 → tokenOf (ps.getD j d) ≠ "") →
      tokenOf (ps.getD (ps.length - 1) d) = "" →
      ps.length ≤ fuel →
      paginate fetch tokenOf step fuel i token acc =
        some (.ok (ps.foldl step acc), i + ps.length) := by
  intro ps
  induction ps with
  | nil => intro i fuel token acc hne; exact absurd rfl hne
  | cons p ps ih =>
    intro i fuel token acc _ hfetch htok hlast hfuel
    obtain ⟨fuel, rfl⟩ : ∃ f, fuel = f + 1 :=
      ⟨fuel - 1, by simp at hfuel; omega⟩
    have h0 : fetch i token = .ok p := by
      have h := hfetch 0 (by simp) token
      simpa using h
    simp only [paginate, h0]
    cases ps with
    | nil =>
      have hz : tokenOf p = "" := by simpa using hlast
      simp [hz]
    | cons q qs =>
      have hnz : tokenOf p ≠ "" := by
        have h := htok 0 (by simp)
        simpa using h
      simp only [if_neg hnz]
      have hres := ih (i + 1) fuel (tokenOf p) (step acc p) (by simp)
        (fun j hj tk => by
          have h := hfetch (j + 1) (by simp at hj ⊢; omega) tk
          simpa [show i + (j + 1) = i + 1 + j by omega] using h)
        (fun j hj => by
          have h := htok (j + 1) (by simp at hj ⊢; omega)
          simpa using h)
        (by
          have hlen : (q :: qs).length - 1 + 1 = (p :: q :: qs).length - 1 := by
            simp
          rw [← hlen] at hlast
          simpa using hlast)
        (by simp at hfuel ⊢; omega)
      rw [hres]
      have harith : i + 1 + (q :: qs).length = i + (p :: q :: qs).length := by
        simp; omega
      rw [harith]
      rfl

/-- The continuation token in force for the fetch that follows the pages
`ps`, when the loop started with token `token`. -/
def lastToken {π : Type} (tokenOf : π → String) (d : π) (token : String) :
    List π → String
  | [] => token
  | ps => tokenOf (ps.getD (ps.length - 1) d)

theorem lastToken_cons {π : Type} (tokenOf : π → String) (d : π)
    (token : String) (p : π) (ps : List π) :
    lastToken tokenOf d token (p :: ps) = lastToken tokenOf d (tokenOf p) ps := by
  cases ps with
  | nil => simp [lastToken]
  | cons q qs => simp [lastToken]

/-- After consuming the pages `ps` (all with non-empty tokens), a fetch
that fails halts the loop at once: the loop returns that fetch's error and
has issued exactly `ps.length + 1` fetches. -/
theorem paginate_error {π α : Type} (fetch : Nat → String → Except SFError π)
    (tokenOf : π → String) (step : α → π → α) (d : π) (errF : String → SFError) :
    ∀ (ps : List π) (i fuel : Nat) (token : String) (acc : α),
      (∀ j, j < ps.length → ∀ tk, fetch (i + j) tk = .ok (ps.getD j d)) →
      (∀ j, j < ps.length → tokenOf (ps.getD j d) ≠ "") →
      (∀ tk, fetch (i + ps.length) tk = .error (errF tk)) →
      ps.length < fuel →
      paginate fetch tokenOf step fuel i token acc =
        some (.error (errF (lastToken tokenOf d token ps)), i + ps.length + 1) := by
  intro ps
  induction ps with
  | nil =>
    intro i fuel token acc _ _ herr hfuel
    obtain ⟨fuel, rfl⟩ : ∃ f, fuel = f + 1 := ⟨fuel - 1, by omega⟩
    have h0 : fetch i token = .error (errF token) := by simpa using herr token
    simp [paginate, h0, lastToken]
  | cons p ps ih =>
    intro i fuel token acc hfetch htok herr hfuel
    obtain ⟨fuel, rfl⟩ : ∃ f, fuel = f + 1 := ⟨fuel - 1, by omega⟩
    have h0 : fetch i token = .ok p := by
      have h := hfetch 0 (by simp) token
      simpa using h
    have hnz : tokenOf p ≠ "" := by
      have h := htok 0 (by simp)
      simpa using h
    simp only [paginate, h0, if_neg hnz]
    have hres := ih (i + 1) fuel (tokenOf p) (step acc p)
      (fun j hj tk => by
        have h := hfetch (j + 1) (by simp at hj ⊢; omega) tk
        simpa [show i + (j + 1) = i + 1 + j by omega] using h)
      (fun j hj => by
        have h := htok (j + 1) (by simp at hj ⊢; omega)
        simpa using h)
      (fun tk => by
        have h := herr tk
        simpa [show i + (ps.length + 1) = i + 1 + ps.length by omega] using h)
      (by simp at hfuel ⊢; omega)
    rw [hres, lastToken_cons]
    have harith : i + 1 + ps.length + 1 = i + (p :: ps).length + 1 := by
      simp; omega
    rw [harith]

/-- Whether one fetch outcome halts the pagination loop: a failed fetch,
or a page whose continuation token is empty. -/
def fetchStops {π : Type} (tokenOf : π → String) : Except SFError π → Bool
  | .error _ => true
  | .ok page => tokenOf page == ""

/-- If no fetch within the fuel bound halts the loop, the fuel runs out. -/
theorem paginate_none {π α : Type} (fetch : Nat → String → Except SFError π)
    (tokenOf : π → String) (step : α → π → α) (stops : Nat → Bool)
    (hs : ∀ n tk, fetchStops tokenOf (fetch n tk) = stops n) :
    ∀ (fuel i : Nat) (token : String) (acc : α),
      (∀ j, j < fuel → stops (i + j) = false) →
      paginate fetch tokenOf step fuel i token acc = none := by
  intro fuel
  induction fuel with
  | zero => intro i token acc _; rfl
  | succ fuel ih =>
    intro i token acc hnone
    have h0 : stops i = false := by simpa using hnone 0 (by omega)
    have hfs := hs i token
    rw [h0] at hfs
    cases hf : fetch i token with
    | error e => rw [hf] at hfs; simp [fetchStops] at hfs
    | ok page =>
      rw [hf] at hfs
      have hnz : tokenOf page ≠ "" := by
        simpa [fetchStops] using hfs
      simp only [paginate, hf, if_neg hnz]
      exact ih (i + 1) (tokenOf page) (step acc page)
        (fun j hj => by
          have h := hnone (j + 1) (by omega)
          simpa [show i + (j + 1) = i + 1 + j by omega] using h)

/-- If the `k`-th upcoming fetch halts the loop and no earlier one does,
any fuel beyond `k` makes the loop terminate. -/
theorem paginate_stops {π α : Type} (fetch : Nat → String → Except SFError π)
    (tokenOf : π → String) (step : α → π → α) (stops : Nat → Bool)
    (hs : ∀ n tk, fetchStops tokenOf (fetch n tk) = stops n) :
    ∀ (k i fuel : Nat) (token : String) (acc : α),
      stops (i + k) = true →
      (∀ j, j < k → stops (i + j) = false) →
      k < fuel →
      ∃ r, paginate fetch tokenOf step fuel i token acc = some r := by
  intro k
  induction k with
  | zero =>
    intro i fuel token acc hstop _ hfuel
    obtain ⟨fuel, rfl⟩ : ∃ f, fuel = f + 1 := ⟨fuel - 1, by omega⟩
    have hfs := hs i token
    rw [show i + 0 = i from rfl] at hstop
    rw [hstop] at hfs
    cases hf : fetch i token with
    | error e =>
      exact ⟨(.error e, i + 1), by simp [paginate, hf]⟩
    | ok page =>
      rw [hf] at hfs
      have hz : tokenOf page = "" := by
        simpa [fetchStops] using hfs
      exact ⟨(.ok (step acc page), i + 1), by simp [paginate, hf, hz]⟩
  | succ k ih =>
    intro i fuel token acc hstop hbefore hfuel
    obtain ⟨fuel, rfl⟩ : ∃ f, fuel = f + 1 := ⟨fuel - 1, by omega⟩
    have h0 : stops i = false := by simpa using hbefore 0 (by omega)
    have hfs := hs i token
    rw [h0] at hfs
    cases hf : fetch i token with
    | error e => rw [hf] at hfs; simp [fetchStops] at hfs
    | ok page =>
      rw [hf] at hfs
      have hnz : tokenOf page ≠ "" := by
        simpa [fetchStops] using hfs
      simp only [paginate, hf, if_neg hnz]
      exact ih (i + 1) fuel (tokenOf page) (step acc page)
        (by simpa [show i + 1 + k = i + (k + 1) by omega] using hstop)
        (fun j hj => by
          have h := hbefore (j + 1) (by omega)
          simpa [show i + (j + 1) = i + 1 + j by omega] using h)
        (by omega)

deriving instance DecidableEq for Except

/-- Folding pages into the aggregate page concatenates their item lists in
order and leaves the continuation token untouched. -/
theorem foldl_appendItems (ps : List ApplicationItemsPage) :
    ∀ acc : ApplicationItemsPage,
      ps.foldl (fun acc p => { acc with Items := acc.Items ++ p.Items }) acc =
        { acc with Items := acc.Items ++ (ps.map (fun p => p.Items)).flatten } := by
  induction ps with
  | nil => intro acc; simp
  | cons p ps ih => intro acc; simp [List.foldl_cons, ih]

/-- A successful fetch-and-decode step of the `GetApplications` loop. -/
theorem appFetch_ok (endpoint apiVersion : String)
    (transport : Nat → TransportResult)
    (decode : String → Except String ApplicationItemsPage)
    (j : Nat) (tk b : String) (page : ApplicationItemsPage)
    (htr : transport j = some ⟨200, b⟩) (hb : b.length ≠ 0)
    (hd : decode b = .ok page) :
    appFetch ⟨endpoint, apiVersion, true⟩ transport decode j tk = .ok page := by
  unfold appFetch getHTTP
  rw [htr]
  simp [hb, hd]

/-- C1: for every sequence of `N` pages returned by the transport (page
`j` decoding from body `bodyF j`), with the first `N - 1` pages carrying a
non-empty continuation token and the final page an empty or absent one,
`GetApplications` returns the concatenation of all pages' items in
original cross-page order — no de-duplication — and issues exactly `N`
fetches. -/
theorem getApplications_pagination
    (endpoint apiVersion : String) (transport : Nat → TransportResult)
    (decode : String → Except String ApplicationItemsPage)
    (bodyF : Nat → String) (pages : List ApplicationItemsPage) (fuel : Nat)
    (hne : pages ≠ [])
    (htr : ∀ j, j < pages.length → transport j = some ⟨200, bodyF j⟩)
    (hbody : ∀ j, j < pages.length → (bodyF j).length ≠ 0)
    (hdec : ∀ j, j < pages.length →
      decode (bodyF j) = .ok (pages.getD j ⟨none, []⟩))
    (htok : ∀ j, j < pages.length - 1 →
      getString (pages.getD j ⟨none, []⟩).ContinuationToken ≠ "")
    (hlast : getString (pages.getD (pages.length - 1) ⟨none, []⟩).ContinuationToken = "")
    (hfuel : pages.length ≤ fuel) :
    GetApplications ⟨endpoint, apiVersion, true⟩ transport decode fuel =
      some (.ok ⟨none, (pages.map (fun p => p.Items)).flatten⟩, pages.length) := by
  unfold GetApplications
  have h := paginate_ok (appFetch ⟨endpoint, apiVersion, true⟩ transport decode)
    (fun p => getString p.ContinuationToken)
    (fun (acc : ApplicationItemsPage) p => { acc with Items := acc.Items ++ p.Items })
    (⟨none, []⟩ : ApplicationItemsPage)
    pages 0 fuel "" ⟨none, []⟩ hne
    (fun j hj tk => by
      rw [Nat.zero_add]
      exact appFetch_ok endpoint apiVersion transport decode j tk (bodyF j)
        (pages.getD j ⟨none, []⟩) (htr j hj) (hbody j hj) (hdec j hj))
    htok hlast hfuel
  rw [h, foldl_appendItems]
  simp

/-- Concrete run for C1: two pages, three items in all (one of them a
cross-page duplicate that is preserved), two fetches. -/
theorem getApplications_pagination_witness :
    GetApplications ⟨"http://sf", "3.0", true⟩
      (fun i => if i = 0 then some ⟨200, "b0"⟩ else some ⟨200, "b1"⟩)
      (fun s =>
        if s = "b0" then
          .ok ⟨some "t1", [⟨"Ok", "id1", "app1", [], "Up", "T", "1"⟩]⟩
        else if s = "b1" then
          .ok ⟨none, [⟨"Ok", "id1", "app1", [], "Up", "T", "1"⟩,
                      ⟨"Ok", "id2", "app2", [], "Up", "T", "1"⟩]⟩
        else .error "bad")
      2 =
      some (.ok ⟨none, [⟨"Ok", "id1", "app1", [], "Up", "T", "1"⟩,
                        ⟨"Ok", "id1", "app1", [], "Up", "T", "1"⟩,
                        ⟨"Ok", "id2", "app2", [], "Up", "T", "1"⟩]⟩, 2) := by
  have h := getApplications_pagination "http://sf" "3.0"
    (fun i => if i = 0 then some ⟨200, "b0"⟩ else some ⟨200, "b1"⟩)
    (fun s =>
      if s = "b0" then
        .ok ⟨some "t1", [⟨"Ok", "id1", "app1", [], "Up", "T", "1"⟩]⟩
      else if s = "b1" then
        .ok ⟨none, [⟨"Ok", "id1", "app1", [], "Up", "T", "1"⟩,
                    ⟨"Ok", "id2", "app2", [], "Up", "T", "1"⟩]⟩
      else .error "bad")
    (fun j => if j = 0 then "b0" else "b1")
    [⟨some "t1", [⟨"Ok", "id1", "app1", [], "Up", "T", "1"⟩]⟩,
     ⟨none, [⟨"Ok", "id1", "app1", [], "Up", "T", "1"⟩,
             ⟨"Ok", "id2", "app2", [], "Up", "T", "1"⟩]⟩]
    2 (by decide) (by decide) (by decide) (by decide) (by decide) (by decide)
    (by decide)
  exact h

/-- C2: a name whose existence probe answers with a non-200 status (and no
transport error) makes `GetProperties` return `(false, nil, nil)` without
issuing a single GetProperties page fetch. -/
theorem getProperties_absent (endpoint apiVersion name b : String) (s : Nat)
    (transport : Nat → TransportResult)
    (decode : String → Except String PropertiesListPage) (fuel : Nat)
    (hs : s ≠ 200) :
    GetProperties ⟨endpoint, apiVersion, true⟩ name (some ⟨s, b⟩) transport decode fuel =
      some ((false, none, none), 0) := by
  unfold GetProperties nameExists getHTTPRaw
  simp [hs]

/-- Concrete run for C2: a 404 probe yields `(false, nil, nil)` and zero
page fetches, whatever the transport would have answered. -/
theorem getProperties_absent_witness :
    GetProperties ⟨"http://sf", "3.0", true⟩ "myname" (some ⟨404, "not found"⟩)
      (fun _ => some ⟨200, "b"⟩) (fun _ => .error "never decoded") 5 =
      some ((false, none, none), 0) :=
  getProperties_absent "http://sf" "3.0" "myname" "not found" 404
    (fun _ => some ⟨200, "b"⟩) (fun _ => .error "never decoded") 5 (by decide)

/-- The pair a property contributes to the mapping: only `"String"`-kind
properties contribute. -/
def propPair (p : Property) : Option (String × String) :=
  if p.Value.Kind = "String" then some (p.Name, p.Value.Data) else none

/-- The per-page accumulation keeps exactly the `"String"`-kind
properties' `(Name, Value.Data)` pairs, in order. -/
theorem foldl_propInsert (props : List Property) :
    ∀ acc, props.foldl
        (fun m property =>
          if property.Value.Kind ≠ "String" then m
          else mapInsert m property.Name property.Value.Data) acc =
      acc ++ props.filterMap propPair := by
  induction props with
  | nil => intro acc; simp
  | cons p ps ih =>
    intro acc
    rw [List.foldl_cons]
    by_cases h : p.Value.Kind = "String"
    · rw [if_neg (by simp [h]), ih]
      simp [List.filterMap_cons, propPair, h, mapInsert, List.append_assoc]
    · rw [if_pos h, ih]
      simp [List.filterMap_cons, propPair, h]

theorem propStep_eq (page : PropertiesListPage) (acc : List (String × String)) :
    propStep acc page = acc ++ page.Properties.filterMap propPair :=
  foldl_propInsert page.Properties acc

theorem foldl_propStep (ps : List PropertiesListPage) :
    ∀ acc, ps.foldl propStep acc =
      acc ++ ((ps.map (fun p => p.Properties)).flatten.filterMap propPair) := by
  induction ps with
  | nil => intro acc; simp
  | cons p ps ih =>
    intro acc
    rw [List.foldl_cons, propStep_eq, ih]
    simp [List.append_assoc]

/-- A successful fetch-and-decode step of the `GetProperties` loop. -/
theorem propsFetch_ok (endpoint apiVersion name : String)
    (transport : Nat → TransportResult)
    (decode : String → Except String PropertiesListPage)
    (j : Nat) (tk b : String) (page : PropertiesListPage)
    (htr : transport j = some ⟨200, b⟩) (hb : b.length ≠ 0)
    (hd : decode b = .ok page) :
    propsFetch ⟨endpoint, apiVersion, true⟩ name transport decode j tk = .ok page := by
  unfold propsFetch getHTTP
  rw [htr]
  simp [hb, hd]

/-- C3: over any run of fetched property pages, the mapping built by
`GetProperties` holds exactly the `(Name, Value.Data)` pairs of the
properties whose `Value.Kind` is exactly `"String"`, every other kind
being silently dropped. -/
theorem getProperties_filter_string_kind
    (endpoint apiVersion name pb : String)
    (transport : Nat → TransportResult)
    (decode : String → Except String PropertiesListPage)
    (bodyF : Nat → String) (pages : List PropertiesListPage) (fuel : Nat)
    (hne : pages ≠ [])
    (htr : ∀ j, j < pages.length → transport j = some ⟨200, bodyF j⟩)
    (hbody : ∀ j, j < pages.length → (bodyF j).length ≠ 0)
    (hdec : ∀ j, j < pages.length →
      decode (bodyF j) = .ok (pages.getD j ⟨"", true, []⟩))
    (htok : ∀ j, j < pages.length - 1 →
      (pages.getD j ⟨"", true, []⟩).ContinuationToken ≠ "")
    (hlast : (pages.getD (pages.length - 1) ⟨"", true, []⟩).ContinuationToken = "")
    (hfuel : pages.length ≤ fuel) :
    GetProperties ⟨endpoint, apiVersion, true⟩ name (some ⟨200, pb⟩) transport decode fuel =
      some ((true,
        some ((pages.map (fun p => p.Properties)).flatten.filterMap propPair),
        none), pages.length) := by
  unfold GetProperties
  have hname : nameExists ⟨endpoint, apiVersion, true⟩ name (some ⟨200, pb⟩) = .ok true := by
    simp [nameExists, getHTTPRaw]
  rw [hname]
  have h := paginate_ok (propsFetch ⟨endpoint, apiVersion, true⟩ name transport decode)
    (fun p => p.ContinuationToken) propStep (⟨"", true, []⟩ : PropertiesListPage)
    pages 0 fuel "" [] hne
    (fun j hj tk => by
      rw [Nat.zero_add]
      exact propsFetch_ok endpoint apiVersion name transport decode j tk (bodyF j)
        (pages.getD j ⟨"", true, []⟩) (htr j hj) (hbody j hj) (hdec j hj))
    htok hlast hfuel
  rw [h, foldl_propStep]
  simp

/-- Concrete run for C3: of the fetched properties, exactly the
`"String"`-kind ones (`"a"` and `"c"`) reach the mapping; the `Int64`
property `"b"` is dropped. -/
theorem getProperties_filter_string_kind_witness :
    GetProperties ⟨"http://sf", "3.0", true⟩ "myname" (some ⟨200, "ok"⟩)
      (fun i => if i = 0 then some ⟨200, "p0"⟩ else some ⟨200, "p1"⟩)
      (fun s =>
        if s = "p0" then
          .ok ⟨"t", true, [⟨⟨"", "", "", "", 0, ""⟩, "a", ⟨"x", "String"⟩⟩,
                           ⟨⟨"", "", "", "", 0, ""⟩, "b", ⟨"5", "Int64"⟩⟩]⟩
        else if s = "p1" then
          .ok ⟨"", true, [⟨⟨"", "", "", "", 0, ""⟩, "c", ⟨"y", "String"⟩⟩]⟩
        else .error "bad")
      2 =
      some ((true, some [("a", "x"), ("c", "y")], none), 2) := by
  have h := getProperties_filter_string_kind "http://sf" "3.0" "myname" "ok"
    (fun i => if i = 0 then some ⟨200, "p0"⟩ else some ⟨200, "p1"⟩)
    (fun s =>
      if s = "p0" then
        .ok ⟨"t", true, [⟨⟨"", "", "", "", 0, ""⟩, "a", ⟨"x", "String"⟩⟩,
                         ⟨⟨"", "", "", "", 0, ""⟩, "b", ⟨"5", "Int64"⟩⟩]⟩
      else if s = "p1" then
        .ok ⟨"", true, [⟨⟨"", "", "", "", 0, ""⟩, "c", ⟨"y", "String"⟩⟩]⟩
      else .error "bad")
    (fun j => if j = 0 then "p0" else "p1")
    [⟨"t", true, [⟨⟨"", "", "", "", 0, ""⟩, "a", ⟨"x", "String"⟩⟩,
                  ⟨⟨"", "", "", "", 0, ""⟩, "b", ⟨"5", "Int64"⟩⟩]⟩,
     ⟨"", true, [⟨⟨"", "", "", "", 0, ""⟩, "c", ⟨"y", "String"⟩⟩]⟩]
    2 (by decide) (by decide) (by decide) (by decide) (by decide) (by decide)
    (by decide)
  exact h

/-- If no extension's key matches case-insensitively, the inner scan finds
nothing. -/
theorem findExtensionValue_eq_none (equalFold : String → String → Bool)
    (extensionKey : String) :
    ∀ extensions : List KeyValuePair,
      (∀ e ∈ extensions, equalFold e.Key extensionKey = false) →
      findExtensionValue equalFold extensions extensionKey = none := by
  intro extensions
  induction extensions with
  | nil => intro _; rfl
  | cons e rest ih =>
    intro h
    unfold findExtensionValue
    rw [h e (by simp), ih (fun x hx => h x (by simp [hx]))]
    simp

/-- If every service type either has a different name or no
case-insensitively matching extension key, the nested scan finds
nothing. -/
theorem scanServiceTypes_eq_none (equalFold : String → String → Bool)
    (serviceTypeName extensionKey : String) :
    ∀ serviceTypes : List ServiceType,
      (∀ st ∈ serviceTypes,
        st.ServiceTypeDescription.ServiceTypeName ≠ serviceTypeName ∨
          ∀ e ∈ st.ServiceTypeDescription.Extensions,
            equalFold e.Key extensionKey = false) →
      scanServiceTypes equalFold serviceTypes serviceTypeName extensionKey = none := by
  intro serviceTypes
  induction serviceTypes with
  | nil => intro _; rfl
  | cons st rest ih =>
    intro h
    unfold scanServiceTypes
    have hrest := ih (fun x hx => h x (by simp [hx]))
    rcases h st (by simp) with hname | hext
    · rw [if_neg hname, hrest]
    · by_cases hname : st.ServiceTypeDescription.ServiceTypeName = serviceTypeName
      · rw [if_pos hname, findExtensionValue_eq_none equalFold extensionKey _ hext, hrest]
      · rw [if_neg hname, hrest]

/-- C4: for every key-match relation `equalFold` standing for Go's
`strings.EqualFold`, when no service type's name equals `serviceTypeName`
exactly, or every name-matching service type has no extension whose key
matches `extensionKey` under `equalFold`, `GetServiceExtension` succeeds
and leaves the caller-supplied response value unmodified; when a match
exists, the first match's value is XML-decoded into the response. -/
theorem getServiceExtension_no_match_unmodified {α : Type}
    (endpoint apiVersion appType applicationVersion serviceTypeName extensionKey body : String)
    (decodeJSON : String → Except String (List ServiceType))
    (xmlDecode : String → α → Except String α)
    (equalFold : String → String → Bool) (response : α)
    (serviceTypes : List ServiceType)
    (hb : body.length ≠ 0)
    (hdec : decodeJSON body = .ok serviceTypes) :
    ((∀ st ∈ serviceTypes,
        st.ServiceTypeDescription.ServiceTypeName ≠ serviceTypeName ∨
          ∀ e ∈ st.ServiceTypeDescription.Extensions,
            equalFold e.Key extensionKey = false) →
      GetServiceExtension ⟨endpoint, apiVersion, true⟩ (some ⟨200, body⟩)
          decodeJSON xmlDecode equalFold appType applicationVersion serviceTypeName
          extensionKey response = .ok response) ∧
    (∀ v, scanServiceTypes equalFold serviceTypes serviceTypeName extensionKey = some v →
      GetServiceExtension ⟨endpoint, apiVersion, true⟩ (some ⟨200, body⟩)
          decodeJSON xmlDecode equalFold appType applicationVersion serviceTypeName
          extensionKey response =
        match xmlDecode v response with
        | .error msg => .error (.deserialization msg)
        | .ok r => .ok r) := by
  have hfetch : getHTTP ⟨endpoint, apiVersion, true⟩
      (getURL ⟨endpoint, apiVersion, true⟩
        ("ApplicationTypes/" ++ appType ++ "/$/GetServiceTypes")
        [withParam "ApplicationTypeVersion" applicationVersion])
      (some ⟨200, body⟩) = .ok body := by
    simp [getHTTP, hb]
  constructor
  · intro hnone
    unfold GetServiceExtension
    rw [hfetch]
    simp only [hdec,
      scanServiceTypes_eq_none equalFold serviceTypeName extensionKey serviceTypes hnone]
  · intro v hv
    unfold GetServiceExtension
    rw [hfetch]
    simp only [hdec, hv]

/-- Concrete run for C4, instantiating `equalFold` with an ASCII
case-insensitive fold: a service-type list whose only name-matching type
has no matching extension key leaves the response `"untouched"`; a second
list with a matching key decodes its first match. -/
theorem getServiceExtension_no_match_unmodified_witness :
    GetServiceExtension ⟨"http://sf", "3.0", true⟩ (some ⟨200, "body"⟩)
      (fun s =>
        if s = "body" then
          .ok [⟨⟨false, "OtherType", "", false, "Stateless",
                 [⟨"Traefik", "<xml1>"⟩], [], []⟩, "1", "M", false⟩,
               ⟨⟨false, "SvcType", "", false, "Stateless",
                 [⟨"Weights", "<xml2>"⟩], [], []⟩, "1", "M", false⟩]
        else .error "bad")
      (fun s (r : String) => if s = "<xml2>" then .ok "decoded" else .ok r)
      (fun a b => a.data.map Char.toLower == b.data.map Char.toLower)
      "AppType" "1.0" "SvcType" "traefik" "untouched" = .ok "untouched" ∧
    GetServiceExtension ⟨"http://sf", "3.0", true⟩ (some ⟨200, "body"⟩)
      (fun s =>
        if s = "body" then
          .ok [⟨⟨false, "SvcType", "", false, "Stateless",
                 [⟨"Weights", "<xml2>"⟩], [], []⟩, "1", "M", false⟩]
        else .error "bad")
      (fun s (r : String) => if s = "<xml2>" then .ok "decoded" else .ok r)
      (fun a b => a.data.map Char.toLower == b.data.map Char.toLower)
      "AppType" "1.0" "SvcType" "weights" "untouched" = .ok "decoded" := by
  constructor
  · exact (getServiceExtension_no_match_unmodified "http://sf" "3.0" "AppType" "1.0"
      "SvcType" "traefik" "body"
      (fun s =>
        if s = "body" then
          .ok [⟨⟨false, "OtherType", "", false, "Stateless",
                 [⟨"Traefik", "<xml1>"⟩], [], []⟩, "1", "M", false⟩,
               ⟨⟨false, "SvcType", "", false, "Stateless",
                 [⟨"Weights", "<xml2>"⟩], [], []⟩, "1", "M", false⟩]
        else .error "bad")
      (fun s (r : String) => if s = "<xml2>" then .ok "decoded" else .ok r)
      (fun a b => a.data.map Char.toLower == b.data.map Char.toLower)
      "untouched"
      [⟨⟨false, "OtherType", "", false, "Stateless",
         [⟨"Traefik", "<xml1>"⟩], [], []⟩, "1", "M", false⟩,
       ⟨⟨false, "SvcType", "", false, "Stateless",
         [⟨"Weights", "<xml2>"⟩], [], []⟩, "1", "M", false⟩]
      (by decide) (by decide)).1 (by decide)
  · exact (getServiceExtension_no_match_unmodified "http://sf" "3.0" "AppType" "1.0"
      "SvcType" "weights" "body"
      (fun s =>
        if s = "body" then
          .ok [⟨⟨false, "SvcType", "", false, "Stateless",
                 [⟨"Weights", "<xml2>"⟩], [], []⟩, "1", "M", false⟩]
        else .error "bad")
      (fun s (r : String) => if s = "<xml2>" then .ok "decoded" else .ok r)
      (fun a b => a.data.map Char.toLower == b.data.map Char.toLower)
      "untouched"
      [⟨⟨false, "SvcType", "", false, "Stateless",
         [⟨"Weights", "<xml2>"⟩], [], []⟩, "1", "M", false⟩]
      (by decide) (by decide)).2 "<xml2>" (by decide)

/-! ### Query-string parsing, used to state what parameter the health URL
effectively carries -/

/-- The suffix of `l` after the first occurrence of `c`; for `c = '?'`
this is the query portion of a URL. -/
def dropThroughChar (c : Char) : List Char → Option (List Char)
  | [] => none
  | x :: xs => if x = c then some xs else dropThroughChar c xs

/-- Split a character list on a separator character, like
`strings.Split`. -/
def splitOnCharList (c : Char) : List Char → List (List Char)
  | [] => [[]]
  | x :: xs =>
    let rest := splitOnCharList c xs
    if x = c then [] :: rest
    else (x :: rest.headD []) :: rest.tail

/-- The value of the first query parameter named `name` of `url`, parsed
as an HTTP server does: the query is everything after the first question
mark, parameters are split on ampersands, the key stands before the first
equals sign. -/
def firstParamValue (url : String) (name : String) : Option String :=
  (dropThroughChar '?' url.data).bind (fun query =>
    ((splitOnCharList '&' query).find?
        (fun p => p.takeWhile (fun ch => ch != '=') == name.data)).map
      (fun p => String.mk ((p.dropWhile (fun ch => ch != '=')).drop 1)))

theorem dropThroughChar_append (c : Char) (l₂ : List Char) :
    ∀ l₁ : List Char, c ∉ l₁ →
      dropThroughChar c (l₁ ++ c :: l₂) = some l₂ := by
  intro l₁
  induction l₁ with
  | nil => intro _; simp [dropThroughChar]
  | cons x xs ih =>
    intro h
    rw [List.cons_append]
    unfold dropThroughChar
    rw [if_neg (fun he => h (by simp [he]))]
    exact ih (fun hc => h (by simp [hc]))

theorem splitOnCharList_append (c : Char) (l₂ : List Char) :
    ∀ l₁ : List Char, c ∉ l₁ →
      splitOnCharList c (l₁ ++ c :: l₂) = l₁ :: splitOnCharList c l₂ := by
  intro l₁
  induction l₁ with
  | nil => intro _; simp [splitOnCharList]
  | cons x xs ih =>
    intro h
    rw [List.cons_append]
    show (let rest := splitOnCharList c (xs ++ c :: l₂)
      if x = c then [] :: rest
      else (x :: rest.headD []) :: rest.tail) = (x :: xs) :: splitOnCharList c l₂
    rw [ih (fun hc => h (by simp [hc]))]
    simp only [if_neg (fun he : x = c => h (by simp [he]))]
    rfl

/-- C5: `GetClusterHealth` answers `true` exactly when the probe's status
is 200, whatever the response body holds, and the probed URL's effective
`api-version` query parameter is the hard-coded `"6.0"`, not the client's
configured version. -/
theorem getClusterHealth_status_and_api_version
    (endpoint apiVersion b : String) (s : Nat)
    (hq : '?' ∉ endpoint.data) :
    GetClusterHealth ⟨endpoint, apiVersion, true⟩ (some ⟨s, b⟩) =
      (decide (s = 200), none) ∧
    firstParamValue (healthCheckURL ⟨endpoint, apiVersion, true⟩) "api-version" =
      some "6.0" ∧
    (apiVersion ≠ "6.0" →
      firstParamValue (healthCheckURL ⟨endpoint, apiVersion, true⟩) "api-version" ≠
        some apiVersion) := by
  have hdata : (healthCheckURL ⟨endpoint, apiVersion, true⟩).data =
      endpoint.data ++ ("//$/GetClusterHealth".data ++
        '?' :: ("api-version=6.0".data ++
          '&' :: ("?api-version=".data ++ apiVersion.data))) := by
    show (endpoint ++ "/" ++ "/$/GetClusterHealth?api-version=6.0&" ++ "?" ++
        ("api-version=" ++ apiVersion)).data = _
    simp only [String.data_append, List.append_assoc]
    rfl
  have hquery : dropThroughChar '?' (healthCheckURL ⟨endpoint, apiVersion, true⟩).data =
      some ("api-version=6.0".data ++
        '&' :: ("?api-version=".data ++ apiVersion.data)) := by
    rw [hdata, ← List.append_assoc]
    exact dropThroughChar_append '?' _ _
      (fun hmem => by
        rcases List.mem_append.mp hmem with h | h
        · exact hq h
        · revert h; decide)
  have hmain : firstParamValue (healthCheckURL ⟨endpoint, apiVersion, true⟩)
      "api-version" = some "6.0" := by
    unfold firstParamValue
    rw [hquery, Option.some_bind,
      splitOnCharList_append '&' ("?api-version=".data ++ apiVersion.data)
        "api-version=6.0".data (by decide)]
    rfl
  refine ⟨rfl, hmain, fun hne heq => ?_⟩
  rw [hmain] at heq
  exact hne (Option.some.inj heq).symm

/-- Concrete run for C5: a 500 probe answers `false` with no error, a 200
probe answers `true`, and the probed URL's effective `api-version`
parameter is `"6.0"`, not the configured `"3.0"`. -/
theorem getClusterHealth_status_and_api_version_witness :
    GetClusterHealth ⟨"http://sf", "3.0", true⟩ (some ⟨500, "unhealthy"⟩) =
      (false, none) ∧
    GetClusterHealth ⟨"http://sf", "3.0", true⟩ (some ⟨200, "whatever"⟩) =
      (true, none) ∧
    firstParamValue (healthCheckURL ⟨"http://sf", "3.0", true⟩) "api-version" =
      some "6.0" ∧
    firstParamValue (healthCheckURL ⟨"http://sf", "3.0", true⟩) "api-version" ≠
      some "3.0" := by
  have h1 := getClusterHealth_status_and_api_version "http://sf" "3.0"
    "unhealthy" 500 (by decide)
  have h2 := getClusterHealth_status_and_api_version "http://sf" "3.0"
    "whatever" 200 (by decide)
  exact ⟨h1.1, h2.1, h1.2.1, h1.2.2 (by decide)⟩

/-- C6: a non-200 status on a fetch-body path yields an upstream-status
error whose rendered message carries the status code and the requested
URL, and the pagination loop stops on it at once; a 200 status with an
empty body yields the empty-response error before any decode attempt (the
result holds for every decode function). -/
theorem getHTTP_error_paths
    (endpoint apiVersion url b : String) (s : Nat)
    (transport : Nat → TransportResult)
    (decode : String → Except String ApplicationItemsPage)
    (bodyF : Nat → String) (pages : List ApplicationItemsPage) (fuel : Nat) :
    (s ≠ 200 →
      getHTTP ⟨endpoint, apiVersion, true⟩ url (some ⟨s, b⟩) =
        .error (.upstreamStatus s url) ∧
      ∃ x y z, renderSFError (.upstreamStatus s url) =
        x ++ toString s ++ y ++ url ++ z) ∧
    (getHTTP ⟨endpoint, apiVersion, true⟩ url (some ⟨200, ""⟩) =
      .error .emptyResponse) ∧
    (∀ i tk, transport i = some ⟨200, ""⟩ →
      appFetch ⟨endpoint, apiVersion, true⟩ transport decode i tk =
        .error .emptyResponse) ∧
    (s ≠ 200 →
      (∀ j, j < pages.length → transport j = some ⟨200, bodyF j⟩) →
      (∀ j, j < pages.length → (bodyF j).length ≠ 0) →
      (∀ j, j < pages.length → decode (bodyF j) = .ok (pages.getD j ⟨none, []⟩)) →
      (∀ j, j < pages.length →
        getString (pages.getD j ⟨none, []⟩).ContinuationToken ≠ "") →
      transport pages.length = some ⟨s, b⟩ →
      pages.length < fuel →
      GetApplications ⟨endpoint, apiVersion, true⟩ transport decode fuel =
        some (.error (.upstreamStatus s
            (getURL ⟨endpoint, apiVersion, true⟩ "Applications/"
              [withContinue (lastToken (fun p => getString p.ContinuationToken)
                ⟨none, []⟩ "" pages)])),
          pages.length + 1)) := by
  refine ⟨fun hs => ⟨?_, ?_⟩, ?_, fun i tk htr => ?_, ?_⟩
  · simp [getHTTP, hs]
  · exact ⟨"Service Fabric responded with error code ", " to request ",
      " with body", rfl⟩
  · simp [getHTTP]
  · unfold appFetch getHTTP
    rw [htr]
    simp
  · intro hs htr hbody hdec htok htrE hfuel
    unfold GetApplications
    have h := paginate_error (appFetch ⟨endpoint, apiVersion, true⟩ transport decode)
      (fun p => getString p.ContinuationToken)
      (fun (acc : ApplicationItemsPage) p => { acc with Items := acc.Items ++ p.Items })
      (⟨none, []⟩ : ApplicationItemsPage)
      (fun tk => .upstreamStatus s
        (getURL ⟨endpoint, apiVersion, true⟩ "Applications/" [withContinue tk]))
      pages 0 fuel "" ⟨none, []⟩
      (fun j hj tk => by
        rw [Nat.zero_add]
        exact appFetch_ok endpoint apiVersion transport decode j tk (bodyF j)
          (pages.getD j ⟨none, []⟩) (htr j hj) (hbody j hj) (hdec j hj))
      htok
      (fun tk => by
        rw [Nat.zero_add]
        unfold appFetch getHTTP
        rw [htrE]
        simp [hs])
      hfuel
    rw [h]
    simp

/-- Concrete run for C6: a 500 status on the second fetch halts the
applications loop after exactly two fetches with an upstream-status error
carrying the status and the second fetch's URL, whose rendered message
contains both; an empty 200 body yields the empty-response error. -/
theorem getHTTP_error_paths_witness :
    (getHTTP ⟨"http://sf", "3.0", true⟩ "http://sf/u?api-version=3.0"
        (some ⟨500, "oops"⟩) =
      .error (.upstreamStatus 500 "http://sf/u?api-version=3.0")) ∧
    (∃ x y z, renderSFError (.upstreamStatus 500 "http://sf/u?api-version=3.0") =
      x ++ toString 500 ++ y ++ "http://sf/u?api-version=3.0" ++ z) ∧
    (getHTTP ⟨"http://sf", "3.0", true⟩ "http://sf/u?api-version=3.0"
        (some ⟨200, ""⟩) = .error .emptyResponse) ∧
    GetApplications ⟨"http://sf", "3.0", true⟩
      (fun i => if i = 0 then some ⟨200, "b0"⟩ else some ⟨500, "oops"⟩)
      (fun st => if st = "b0" then .ok ⟨some "t1", []⟩ else .error "bad")
      5 =
      some (.error (.upstreamStatus 500
          (getURL ⟨"http://sf", "3.0", true⟩ "Applications/" [withContinue "t1"])),
        2) := by
  have h := getHTTP_error_paths "http://sf" "3.0" "http://sf/u?api-version=3.0"
    "oops" 500
    (fun i => if i = 0 then some ⟨200, "b0"⟩ else some ⟨500, "oops"⟩)
    (fun st => if st = "b0" then .ok ⟨some "t1", []⟩ else .error "bad")
    (fun _ => "b0") [⟨some "t1", []⟩] 5
  refine ⟨(h.1 (by decide)).1, (h.1 (by decide)).2, h.2.1, ?_⟩
  exact h.2.2.2 (by decide) (by decide) (by decide) (by decide) (by decide)
    (by decide) (by decide)

/-- C7 (code bug): the claim and the design document say the deletes
"return boolean success from status code only", but the source routes
both deletes through `postHTTP`, which turns every non-200 status into an
error; at a 500 response `DeleteService` and `DeleteApplication` hence
return `(false, err)` with a non-nil error rather than a bare boolean.
(The Go success branch does not even type-check: `postHTTP` is called
without its `body` argument and its `[]byte` result is compared to an
`int`.) -/
theorem deleteService_non200_is_error (endpoint apiVersion someId b : String) :
    DeleteService ⟨endpoint, apiVersion, true⟩ someId (some ⟨500, b⟩) =
      (false, some (.genericMsg "error getting cluster health")) ∧
    DeleteApplication ⟨endpoint, apiVersion, true⟩ someId (some ⟨500, b⟩) =
      (false, some (.genericMsg "error getting cluster health")) := by
  constructor
  · unfold DeleteService postHTTP
    simp
  · unfold DeleteApplication postHTTP
    simp

/-- C8: construction fails on an empty endpoint with a configuration
error and returns no client; a non-empty endpoint with an empty version
yields a client configured with `"3.0"`; with both non-empty the given
version is stored unchanged. -/
theorem newServiceFabricClient_validation (hc : Bool) (endpoint apiVersion : String) :
    (NewServiceFabricClient hc "" apiVersion =
      .error (.config "endpoint missing for httpClient configuration")) ∧
    (endpoint ≠ "" →
      NewServiceFabricClient hc endpoint "" = .ok ⟨endpoint, "3.0", hc⟩) ∧
    (endpoint ≠ "" → apiVersion ≠ "" →
      NewServiceFabricClient hc endpoint apiVersion = .ok ⟨endpoint, apiVersion, hc⟩) := by
  refine ⟨by simp [NewServiceFabricClient], fun h => ?_, fun h h2 => ?_⟩
  · simp [NewServiceFabricClient, h, DefaultAPIVersion]
  · simp [NewServiceFabricClient, h, h2]

/-- Concrete runs for C8: empty endpoint fails, empty version defaults to
`"3.0"`, explicit version `"4.0"` is kept. -/
theorem newServiceFabricClient_validation_witness :
    (NewServiceFabricClient true "" "4.0" =
      .error (.config "endpoint missing for httpClient configuration")) ∧
    (NewServiceFabricClient true "http://sf" "" = .ok ⟨"http://sf", "3.0", true⟩) ∧
    (NewServiceFabricClient true "http://sf" "4.0" = .ok ⟨"http://sf", "4.0", true⟩) := by
  have h := newServiceFabricClient_validation true "http://sf" "4.0"
  exact ⟨h.1, h.2.1 (by decide), h.2.2 (by decide) (by decide)⟩

/-- Whether the `n`-th fetch of the applications loop halts it: transport
error, non-200 status, empty body, decode failure, or a page with an
empty or absent continuation token. -/
def stopsApp (transport : Nat → TransportResult)
    (decode : String → Except String ApplicationItemsPage) (n : Nat) : Bool :=
  match transport n with
  | none => true
  | some r =>
    if r.status ≠ 200 then true
    else if r.body.length = 0 then true
    else
      match decode r.body with
      | .error _ => true
      | .ok page => getString page.ContinuationToken == ""

/-- Same as `stopsApp` for the services loop. -/
def stopsSvc (transport : Nat → TransportResult)
    (decode : String → Except String ServiceItemsPage) (n : Nat) : Bool :=
  match transport n with
  | none => true
  | some r =>
    if r.status ≠ 200 then true
    else if r.body.length = 0 then true
    else
      match decode r.body with
      | .error _ => true
      | .ok page => getString page.ContinuationToken == ""

/-- Same as `stopsApp` for the properties loop, whose continuation token
is a plain string. -/
def stopsProps (transport : Nat → TransportResult)
    (decode : String → Except String PropertiesListPage) (n : Nat) : Bool :=
  match transport n with
  | none => true
  | some r =>
    if r.status ≠ 200 then true
    else if r.body.length = 0 then true
    else
      match decode r.body with
      | .error _ => true
      | .ok page => page.ContinuationToken == ""

theorem appFetch_stops (endpoint apiVersion : String)
    (transport : Nat → TransportResult)
    (decode : String → Except String ApplicationItemsPage) (n : Nat) (tk : String) :
    fetchStops (fun p => getString p.ContinuationToken)
      (appFetch ⟨endpoint, apiVersion, true⟩ transport decode n tk) =
      stopsApp transport decode n := by
  unfold appFetch stopsApp
  cases htr : transport n with
  | none => simp [getHTTP, fetchStops]
  | some r =>
    by_cases h200 : r.status = 200
    · by_cases hb : r.body.length = 0
      · simp [getHTTP, h200, hb, fetchStops]
      · cases hd : decode r.body with
        | error m => simp [getHTTP, h200, hb, hd, fetchStops]
        | ok page => simp [getHTTP, h200, hb, hd, fetchStops]
    · simp [getHTTP, h200, fetchStops]

theorem svcFetch_stops (endpoint apiVersion appName : String)
    (transport : Nat → TransportResult)
    (decode : String → Except String ServiceItemsPage) (n : Nat) (tk : String) :
    fetchStops (fun p => getString p.ContinuationToken)
      (svcFetch ⟨endpoint, apiVersion, true⟩ appName transport decode n tk) =
      stopsSvc transport decode n := by
  unfold svcFetch stopsSvc
  cases htr : transport n with
  | none => simp [getHTTP, fetchStops]
  | some r =>
    by_cases h200 : r.status = 200
    · by_cases hb : r.body.length = 0
      · simp [getHTTP, h200, hb, fetchStops]
      · cases hd : decode r.body with
        | error m => simp [getHTTP, h200, hb, hd, fetchStops]
        | ok page => simp [getHTTP, h200, hb, hd, fetchStops]
    · simp [getHTTP, h200, fetchStops]

theorem propsFetch_stops (endpoint apiVersion name : String)
    (transport : Nat → TransportResult)
    (decode : String → Except String PropertiesListPage) (n : Nat) (tk : String) :
    fetchStops (fun p => p.ContinuationToken)
      (propsFetch ⟨endpoint, apiVersion, true⟩ name transport decode n tk) =
      stopsProps transport decode n := by
  unfold propsFetch stopsProps
  cases htr : transport n with
  | none => simp [getHTTP, fetchStops]
  | some r =>
    by_cases h200 : r.status = 200
    · by_cases hb : r.body.length = 0
      · simp [getHTTP, h200, hb, fetchStops]
      · cases hd : decode r.body with
        | error m => simp [getHTTP, h200, hb, hd, fetchStops]
        | ok page => simp [getHTTP, h200, hb, hd, fetchStops]
    · simp [getHTTP, h200, fetchStops]

/-- The loop exhausts every fuel bound exactly when no fetch ever halts
it. -/
theorem paginate_divergence_iff {π α : Type} (fetch : Nat → String → Except SFError π)
    (tokenOf : π → String) (step : α → π → α) (stops : Nat → Bool)
    (hs : ∀ n tk, fetchStops tokenOf (fetch n tk) = stops n)
    (token : String) (acc : α) :
    (∀ fuel, paginate fetch tokenOf step fuel 0 token acc = none) ↔
      (∀ n, stops n = false) := by
  constructor
  · intro hall n
    by_contra hn
    have hstop : stops n = true := by
      cases h : stops n
      · exact absurd h hn
      · rfl
    have hex : ∃ m, stops m = true := ⟨n, hstop⟩
    have hmin : ∀ j, j < Nat.find hex → stops j = false := by
      intro j hj
      have hj2 := Nat.find_min hex hj
      cases h : stops j
      · rfl
      · exact absurd h hj2
    obtain ⟨r, hr⟩ := paginate_stops fetch tokenOf step stops hs (Nat.find hex) 0
      (Nat.find hex + 1) token acc (by simpa using Nat.find_spec hex)
      (fun j hj => by simpa using hmin j hj) (by omega)
    have hcontra := hall (Nat.find hex + 1)
    rw [hr] at hcontra
    exact Option.noConfusion hcontra
  · intro hnone fuel
    exact paginate_none fetch tokenOf step stops hs fuel 0 token acc
      (fun j _ => hnone (0 + j))

/-- C9: each pagination loop (applications, services, properties) runs out
of any fuel bound — i.e. iterates without bound — exactly when no fetch
returns an error or a page with an empty continuation token; in
particular a transport whose pages all carry non-empty tokens never lets
the loop terminate. -/
theorem pagination_termination_iff
    (endpoint apiVersion appName name pb : String)
    (transportA transportS transportP : Nat → TransportResult)
    (decodeA : String → Except String ApplicationItemsPage)
    (decodeS : String → Except String ServiceItemsPage)
    (decodeP : String → Except String PropertiesListPage) :
    ((∀ fuel, GetApplications ⟨endpoint, apiVersion, true⟩ transportA decodeA fuel =
        none) ↔ (∀ n, stopsApp transportA decodeA n = false)) ∧
    ((∀ fuel, GetServices ⟨endpoint, apiVersion, true⟩ appName transportS decodeS fuel =
        none) ↔ (∀ n, stopsSvc transportS decodeS n = false)) ∧
    ((∀ fuel, GetProperties ⟨endpoint, apiVersion, true⟩ name (some ⟨200, pb⟩)
        transportP decodeP fuel = none) ↔
      (∀ n, stopsProps transportP decodeP n = false)) := by
  refine ⟨?_, ?_, ?_⟩
  · exact paginate_divergence_iff _ _ _ _
      (appFetch_stops endpoint apiVersion transportA decodeA) ""
      (⟨none, []⟩ : ApplicationItemsPage)
  · exact paginate_divergence_iff _ _ _ _
      (svcFetch_stops endpoint apiVersion appName transportS decodeS) ""
      (⟨none, []⟩ : ServiceItemsPage)
  · have hname : nameExists ⟨endpoint, apiVersion, true⟩ name (some ⟨200, pb⟩) =
        .ok true := by simp [nameExists, getHTTPRaw]
    have base := paginate_divergence_iff
      (propsFetch ⟨endpoint, apiVersion, true⟩ name transportP decodeP)
      (fun p => p.ContinuationToken) propStep (stopsProps transportP decodeP)
      (propsFetch_stops endpoint apiVersion name transportP decodeP) "" []
    constructor
    · intro hall
      apply base.mp
      intro fuel
      have h := hall fuel
      unfold GetProperties at h
      rw [hname] at h
      cases hp : paginate (propsFetch ⟨endpoint, apiVersion, true⟩ name transportP decodeP)
          (fun p => p.ContinuationToken) propStep fuel 0 "" [] with
      | none => rfl
      | some r =>
        rw [hp] at h
        obtain ⟨res, n⟩ := r
        cases res <;> simp at h
    · intro hstops fuel
      unfold GetProperties
      rw [hname, base.mpr hstops fuel]

/-- Flattening the decoded labels by repeated Go map insertion lists their
`(Key, Value)` pairs in document order. -/
theorem foldl_mapInsert (ls : List SELabel) :
    ∀ acc, ls.foldl (fun m label => mapInsert m label.Key label.Value) acc =
      acc ++ ls.map (fun l => (l.Key, l.Value)) := by
  induction ls with
  | nil => intro acc; simp
  | cons l ls ih =>
    intro acc
    rw [List.foldl_cons, ih]
    simp [mapInsert, List.append_assoc]

theorem find?_label_pairs (k : String) : ∀ ls : List SELabel,
    ((ls.map (fun l => (l.Key, l.Value))).find? (fun p => p.1 == k)).map
        (fun p => p.2) =
      (ls.find? (fun l => l.Key == k)).map (fun l => l.Value) := by
  intro ls
  induction ls with
  | nil => rfl
  | cons l ls ih =>
    rw [List.map_cons, List.find?_cons, List.find?_cons]
    cases h : (l.Key == k) with
    | true => simp only [h]; rfl
    | false => simp only [h]; exact ih

/-- The Go map built from the labels reads as: last label in document
order bearing the key wins. -/
theorem mapLookup_labels (ls : List SELabel) (k : String) :
    mapLookup (ls.map (fun l => (l.Key, l.Value))) k =
      (ls.reverse.find? (fun l => l.Key == k)).map (fun l => l.Value) := by
  unfold mapLookup
  rw [← List.map_reverse]
  exact find?_label_pairs k ls.reverse

/-- C10: for every key-match relation `equalFold` standing for Go's
`strings.EqualFold`, whenever `GetServiceExtensionMap` returns without
error its mapping is non-nil; it is the empty map when the extension is
absent or decodes to no labels, and otherwise lists the decoded labels'
`(Key, Value)` pairs in document order, so that reading a key yields the
value of the last label in document order bearing it. -/
theorem getServiceExtensionMap_non_nil_last_wins
    (endpoint apiVersion extensionKey body v : String)
    (decodeJSON : String → Except String (List ServiceType))
    (xmlDecode : String → ServiceExtensionLabels → Except String ServiceExtensionLabels)
    (equalFold : String → String → Bool)
    (service : ServiceItem) (app : ApplicationItem)
    (t : TransportResult) (m : GoStringMap)
    (serviceTypes : List ServiceType) (out : ServiceExtensionLabels) :
    (GetServiceExtensionMap ⟨endpoint, apiVersion, true⟩ t decodeJSON xmlDecode
        equalFold service app extensionKey = .ok m → m ≠ none) ∧
    (body.length ≠ 0 → t = some ⟨200, body⟩ →
      decodeJSON body = .ok serviceTypes →
      scanServiceTypes equalFold serviceTypes service.TypeName extensionKey = none →
      GetServiceExtensionMap ⟨endpoint, apiVersion, true⟩ t decodeJSON xmlDecode
        equalFold service app extensionKey = .ok (some [])) ∧
    (body.length ≠ 0 → t = some ⟨200, body⟩ →
      decodeJSON body = .ok serviceTypes →
      scanServiceTypes equalFold serviceTypes service.TypeName extensionKey = some v →
      xmlDecode v ⟨none⟩ = .ok out →
      GetServiceExtensionMap ⟨endpoint, apiVersion, true⟩ t decodeJSON xmlDecode
          equalFold service app extensionKey =
        .ok (some ((out.Label.getD []).map (fun l => (l.Key, l.Value)))) ∧
      ∀ k, mapLookup ((out.Label.getD []).map (fun l => (l.Key, l.Value))) k =
        ((out.Label.getD []).reverse.find? (fun l => l.Key == k)).map
          (fun l => l.Value)) := by
  refine ⟨?_, ?_, ?_⟩
  · intro h
    unfold GetServiceExtensionMap at h
    cases hg : GetServiceExtension ⟨endpoint, apiVersion, true⟩ t decodeJSON xmlDecode
        equalFold app.TypeName app.TypeVersion service.TypeName extensionKey
        (⟨none⟩ : ServiceExtensionLabels) with
    | error e =>
      rw [hg] at h
      have h2 : (Except.error e : Except SFError GoStringMap) = Except.ok m := h
      exact Except.noConfusion h2
    | ok ed =>
      rw [hg] at h
      have h2 : (match ed.Label with
        | none => (Except.ok (some []) : Except SFError GoStringMap)
        | some ls => Except.ok (some (ls.foldl
            (fun m label => mapInsert m label.Key label.Value) []))) =
          Except.ok m := h
      cases hl : ed.Label with
      | none =>
        rw [hl] at h2
        rw [← Except.ok.inj h2]
        simp
      | some ls =>
        rw [hl] at h2
        rw [← Except.ok.inj h2]
        simp
  · intro hb ht hdec hscan
    subst ht
    unfold GetServiceExtensionMap GetServiceExtension
    have hfetch : getHTTP ⟨endpoint, apiVersion, true⟩
        (getURL ⟨endpoint, apiVersion, true⟩
          ("ApplicationTypes/" ++ app.TypeName ++ "/$/GetServiceTypes")
          [withParam "ApplicationTypeVersion" app.TypeVersion])
        (some ⟨200, body⟩) = .ok body := by
      simp [getHTTP, hb]
    rw [hfetch]
    simp only [hdec, hscan]
  · intro hb ht hdec hscan hxml
    subst ht
    unfold GetServiceExtensionMap GetServiceExtension
    have hfetch : getHTTP ⟨endpoint, apiVersion, true⟩
        (getURL ⟨endpoint, apiVersion, true⟩
          ("ApplicationTypes/" ++ app.TypeName ++ "/$/GetServiceTypes")
          [withParam "ApplicationTypeVersion" app.TypeVersion])
        (some ⟨200, body⟩) = .ok body := by
      simp [getHTTP, hb]
    rw [hfetch]
    simp only [hdec, hscan, hxml]
    constructor
    · cases hl : out.Label with
      | none => simp [hl]
      | some ls => simp [hl, foldl_mapInsert]
    · intro k
      exact mapLookup_labels (out.Label.getD []) k

/-- Concrete run for C10, instantiating `equalFold` with an ASCII
case-insensitive fold: a matching extension decoding to two labels with
the same key yields a non-nil map listing both pairs, and reading the key
yields the later label's value. -/
theorem getServiceExtensionMap_non_nil_last_wins_witness :
    GetServiceExtensionMap ⟨"http://sf", "3.0", true⟩ (some ⟨200, "body"⟩)
      (fun s =>
        if s = "body" then
          .ok [⟨⟨false, "SvcType", "", false, "Stateless",
                 [⟨"Traefik", "<xml>"⟩], [], []⟩, "1", "M", false⟩]
        else .error "bad")
      (fun s l =>
        if s = "<xml>" then .ok ⟨some [⟨"v1", "k"⟩, ⟨"v2", "k"⟩]⟩ else .ok l)
      (fun a b => a.data.map Char.toLower == b.data.map Char.toLower)
      ⟨false, "Ok", "sid", false, "1", "svc", "Stateless", "Active", "SvcType"⟩
      ⟨"Ok", "aid", "app", [], "Up", "AppType", "1.0"⟩
      "traefik" = .ok (some [("k", "v1"), ("k", "v2")]) ∧
    mapLookup [("k", "v1"), ("k", "v2")] "k" = some "v2" := by
  have h := (getServiceExtensionMap_non_nil_last_wins "http://sf" "3.0" "traefik"
    "body" "<xml>"
    (fun s =>
      if s = "body" then
        .ok [⟨⟨false, "SvcType", "", false, "Stateless",
               [⟨"Traefik", "<xml>"⟩], [], []⟩, "1", "M", false⟩]
      else .error "bad")
    (fun s l =>
      if s = "<xml>" then .ok ⟨some [⟨"v1", "k"⟩, ⟨"v2", "k"⟩]⟩ else .ok l)
    (fun a b => a.data.map Char.toLower == b.data.map Char.toLower)
    ⟨false, "Ok", "sid", false, "1", "svc", "Stateless", "Active", "SvcType"⟩
    ⟨"Ok", "aid", "app", [], "Up", "AppType", "1.0"⟩
    (some ⟨200, "body"⟩) (some [("k", "v1"), ("k", "v2")])
    [⟨⟨false, "SvcType", "", false, "Stateless",
       [⟨"Traefik", "<xml>"⟩], [], []⟩, "1", "M", false⟩]
    ⟨some [⟨"v1", "k"⟩, ⟨"v2", "k"⟩]⟩).2.2
    (by decide) (by decide) (by decide) (by decide) (by decide)
  exact ⟨h.1, by have h3 := h.2 "k"; exact h3.trans (by rfl)⟩

end ServiceFabric
